import Mathlib

/-!
Verification of the Phase I in-memory todo application (`src/main.py`).

The Python program keeps its state in a list of task dictionaries
`{"id": int, "title": str, "desc": str, "complete": bool}` and manipulates
it with the functions `find_task`, `get_next_id`, `add_task`, `print_tasks`,
`delete_task`, `update_task`, `toggle_complete`, plus an interactive shell
(`get_int_input`, `get_menu_choice`, `main`).  This file gives a shallow
embedding of those functions: pure store operations become Lean functions
on `List Task`; the interactive shell becomes a function consuming a list
of input events (typed lines or a keyboard interrupt) and producing the
printed output together with the way the process ended.
-/

namespace TodoApp

/-- Embedding of the task dictionary `{"id", "title", "desc", "complete"}`. -/
structure Task where
  id : Int
  title : String
  desc : String
  complete : Bool
deriving DecidableEq, Repr

/-- Python's `str.strip()` on a character list: drop leading and trailing
whitespace. -/
def stripChars (cs : List Char) : List Char :=
  ((cs.dropWhile Char.isWhitespace).reverse.dropWhile Char.isWhitespace).reverse

/-- Embedding of Python's `str.strip()` used by `add_task` and `update_task`. -/
def pyStrip (s : String) : String :=
  ⟨stripChars s.data⟩

/-- Embedding of `find_task`: first task whose id matches, `None` if absent. -/
def find_task (tasks : List Task) (task_id : Int) : Option Task :=
  tasks.find? (fun t => t.id == task_id)

/-- Python's `max(xs, start)` over a list, folding from an initial element. -/
def pymax (x : Int) (xs : List Int) : Int :=
  xs.foldl max x

/-- Embedding of `get_next_id`: `max((t["id"] for t in tasks), default=0) + 1`.
When the list is non-empty the `default` is not used, exactly as in Python. -/
def get_next_id (tasks : List Task) : Int :=
  (match tasks.map Task.id with
   | [] => 0
   | x :: xs => pymax x xs) + 1

/-- Embedding of the store effect of `add_task`: the two raw input lines are
stripped, a task with the next id and `complete = False` is appended, and the
assigned id is returned. -/
def add_task (tasks : List Task) (titleIn descIn : String) : List Task × Int :=
  let title := pyStrip titleIn
  let desc := pyStrip descIn
  let task_id := get_next_id tasks
  (tasks ++ [⟨task_id, title, desc, false⟩], task_id)

/-- Rendering of one task line:
`f"{task['id']}. {status} {task['title']} - {task['desc']}"`. -/
def render_task (t : Task) : String :=
  toString t.id ++ ". " ++ (if t.complete then "[X]" else "[ ]") ++ " "
    ++ t.title ++ " - " ++ t.desc

/-- Embedding of `print_tasks`: the list of printed lines. -/
def print_tasks (tasks : List Task) : List String :=
  if tasks.isEmpty then ["No tasks yet. Add one!"]
  else "Tasks:" :: "------" :: tasks.map render_task

/-- The shared not-found message `f"Task with ID {task_id} not found."`. -/
def notFoundMsg (task_id : Int) : String :=
  "Task with ID " ++ toString task_id ++ " not found."

/-- Embedding of Python's `tasks.remove(t)`: delete the first element equal
to `t`.  (The `ValueError` branch of `list.remove` is unreachable here since
`delete_task` only calls it on an element obtained from `find_task`.) -/
def list_remove (tasks : List Task) (t : Task) : List Task :=
  match tasks with
  | [] => []
  | x :: xs => if x == t then xs else x :: list_remove xs t

/-- Embedding of `delete_task`: returns the new store, the boolean result and
the printed lines. -/
def delete_task (tasks : List Task) (task_id : Int) :
    List Task × Bool × List String :=
  match find_task tasks task_id with
  | some task => (list_remove tasks task, true, [])
  | none => (tasks, false, [notFoundMsg task_id])

/-- The in-place mutation of the dictionary found by `find_task`: apply `f`
to the first task whose id matches, leaving every other position unchanged. -/
def modify_first (tasks : List Task) (task_id : Int) (f : Task → Task) :
    List Task :=
  match tasks with
  | [] => []
  | x :: xs =>
    if x.id == task_id then f x :: xs else x :: modify_first xs task_id f

/-- The field replacement performed by `update_task` on the found task:
a non-empty stripped input replaces the field, an empty one keeps it. -/
def apply_update (new_title new_desc : String) (t : Task) : Task :=
  let t1 := if new_title ≠ "" then { t with title := new_title } else t
  if new_desc ≠ "" then { t1 with desc := new_desc } else t1

/-- Embedding of `update_task`: the two raw input lines are stripped; the
result is the new store, the Python return value (task found), the internal
`changed` flag, and the printed lines other than the echo of the current
fields (`"Task updated."` is printed exactly when `changed` is set, the
not-found message when the id is absent). -/
def update_task (tasks : List Task) (task_id : Int) (titleIn descIn : String) :
    List Task × Bool × Bool × List String :=
  match find_task tasks task_id with
  | none => (tasks, false, false, [notFoundMsg task_id])
  | some _ =>
    let new_title := pyStrip titleIn
    let new_desc := pyStrip descIn
    let changed := new_title ≠ "" || new_desc ≠ ""
    (modify_first tasks task_id (apply_update new_title new_desc), true,
      changed, if changed then ["Task updated."] else [])

/-- Embedding of `toggle_complete`: the new store, the boolean result, and
the printed lines (the status message reflecting the new state, or the
not-found message). -/
def toggle_complete (tasks : List Task) (task_id : Int) :
    List Task × Bool × List String :=
  match find_task tasks task_id with
  | none => (tasks, false, [notFoundMsg task_id])
  | some task =>
    (modify_first tasks task_id (fun t => { t with complete := !t.complete }),
      true,
      if !task.complete then ["Task marked as complete."]
      else ["Task marked as incomplete."])

/-- A store operation for the id-assignment claims: an `add` with its two raw
input lines, or a `delete` of an id. -/
inductive Op where
  | add (titleIn descIn : String)
  | del (task_id : Int)

/-- Apply one operation; the second component lists the id assigned, if any. -/
def apply_op (tasks : List Task) : Op → List Task × List Int
  | Op.add t d => let r := add_task tasks t d; (r.1, [r.2])
  | Op.del i => ((delete_task tasks i).1, [])

/-- Run a sequence of operations from a given store, collecting assigned ids
in order. -/
def run_from (tasks : List Task) : List Op → List Task × List Int
  | [] => (tasks, [])
  | op :: ops =>
    let s := apply_op tasks op
    let r := run_from s.1 ops
    (r.1, s.2 ++ r.2)

/-- Run a sequence of operations from the empty store, as `main` starts. -/
def run_ops (ops : List Op) : List Task × List Int :=
  run_from [] ops

/-! ## Properties of stripping -/

theorem dropWhile_head_not (p : Char → Bool) (l : List Char) :
    ∀ a, (l.dropWhile p).head? = some a → p a = false := by
  induction l with
  | nil => intro a h; simp at h
  | cons x xs ih =>
    intro a h
    by_cases hx : p x = true
    · rw [List.dropWhile_cons_of_pos hx] at h
      exact ih a h
    · rw [List.dropWhile_cons_of_neg hx] at h
      simp at h
      subst h
      simpa using hx

theorem dropWhile_eq_self_of_head (p : Char → Bool) (l : List Char)
    (h : ∀ a, l.head? = some a → p a = false) : l.dropWhile p = l := by
  cases l with
  | nil => rfl
  | cons x xs =>
    have hx : p x = false := h x rfl
    exact List.dropWhile_cons_of_neg (by simp [hx])

theorem stripChars_getLast (cs : List Char) :
    ∀ a, (stripChars cs).getLast? = some a → Char.isWhitespace a = false := by
  intro a h
  rw [stripChars, List.getLast?_reverse] at h
  exact dropWhile_head_not _ _ a h

theorem stripChars_head (cs : List Char) :
    ∀ a, (stripChars cs).head? = some a → Char.isWhitespace a = false := by
  intro a h
  rw [stripChars, List.head?_reverse] at h
  set d1 := cs.dropWhile Char.isWhitespace with hd1
  set d2 := d1.reverse.dropWhile Char.isWhitespace with hd2
  have hsuf : d2 <:+ d1.reverse := List.dropWhile_suffix _
  obtain ⟨pre, hpre⟩ := hsuf
  have hne : d2 ≠ [] := by
    intro hnil
    rw [hnil] at h
    simp at h
  have : d1.reverse.getLast? = some a := by
    rw [← hpre, List.getLast?_append_of_ne_nil _ hne]
    exact h
  rw [List.getLast?_reverse] at this
  exact dropWhile_head_not _ _ a this

theorem stripChars_of_clean (cs : List Char)
    (h1 : ∀ a, cs.head? = some a → Char.isWhitespace a = false)
    (h2 : ∀ a, cs.getLast? = some a → Char.isWhitespace a = false) :
    stripChars cs = cs := by
  rw [stripChars]
  rw [dropWhile_eq_self_of_head _ _ h1]
  rw [dropWhile_eq_self_of_head _ _ (by intro a ha; exact h2 a (by rwa [List.head?_reverse] at ha))]
  exact List.reverse_reverse cs

/-- Stripping is idempotent: a stripped string has no surrounding
whitespace left. -/
theorem stripChars_idem (cs : List Char) :
    stripChars (stripChars cs) = stripChars cs :=
  stripChars_of_clean _ (stripChars_head cs) (stripChars_getLast cs)

theorem pyStrip_empty : pyStrip "" = "" := rfl

theorem pyStrip_idem (s : String) : pyStrip (pyStrip s) = pyStrip s := by
  simp [pyStrip, stripChars_idem]

/-! ## Properties of `get_next_id` -/

theorem pymax_spec (xs : List Int) : ∀ x : Int,
    pymax x xs ∈ x :: xs ∧ ∀ y ∈ x :: xs, y ≤ pymax x xs := by
  induction xs with
  | nil => intro x; simp [pymax]
  | cons z zs ih =>
    intro x
    have hfold : pymax x (z :: zs) = pymax (max x z) zs := rfl
    obtain ⟨hmem, hub⟩ := ih (max x z)
    constructor
    · rw [hfold]
      rcases List.mem_cons.mp hmem with hm | hm
      · rcases max_choice x z with hc | hc
        · rw [hm, hc]; exact List.mem_cons_self _ _
        · rw [hm, hc]; exact List.mem_cons_of_mem _ (List.mem_cons_self _ _)
      · exact List.mem_cons_of_mem _ (List.mem_cons_of_mem _ hm)
    · intro y hy
      rw [hfold]
      rcases List.mem_cons.mp hy with hm | hm
      · subst hm
        exact le_trans (le_max_left y z) (hub _ (List.mem_cons_self _ _))
      · rcases List.mem_cons.mp hm with hm2 | hm2
        · subst hm2
          exact le_trans (le_max_right x y) (hub _ (List.mem_cons_self _ _))
        · exact hub y (List.mem_cons_of_mem _ hm2)

theorem get_next_id_of_nil {tasks : List Task}
    (h : tasks.map Task.id = []) : get_next_id tasks = 1 := by
  unfold get_next_id
  rw [h]
  rfl

theorem get_next_id_of_cons {tasks : List Task} {x : Int} {xs : List Int}
    (h : tasks.map Task.id = x :: xs) :
    get_next_id tasks = pymax x xs + 1 := by
  unfold get_next_id
  rw [h]

/-- Every id in the store is strictly below `get_next_id`: the next id is
fresh for any store whatsoever. -/
theorem get_next_id_gt (tasks : List Task) :
    ∀ t ∈ tasks, t.id < get_next_id tasks := by
  intro t ht
  cases hm : tasks.map Task.id with
  | nil =>
    rw [List.map_eq_nil] at hm
    subst hm
    simp at ht
  | cons x xs =>
    have hmem : t.id ∈ x :: xs := by
      rw [← hm]
      exact List.mem_map_of_mem Task.id ht
    have := (pymax_spec xs x).2 t.id hmem
    rw [get_next_id_of_cons hm]
    omega

/-- While any task with id at least `k` is present, `get_next_id` stays
above `k`: an id below the current maximum cannot be handed out again. -/
theorem get_next_id_gt_of_le (tasks : List Task) (k : Int)
    (h : ∃ t ∈ tasks, k ≤ t.id) : k < get_next_id tasks := by
  obtain ⟨t, ht, hk⟩ := h
  exact lt_of_le_of_lt hk (get_next_id_gt tasks t ht)

/-- The fresh id is never an id of the current store. -/
theorem get_next_id_not_mem (tasks : List Task) :
    get_next_id tasks ∉ tasks.map Task.id := by
  intro hmem
  obtain ⟨t, ht, hid⟩ := List.mem_map.mp hmem
  have := get_next_id_gt tasks t ht
  omega

/-- `get_next_id` depends only on which tasks are in the store, not on
their order. -/
theorem get_next_id_perm (tasks tasks2 : List Task)
    (h : tasks.Perm tasks2) : get_next_id tasks = get_next_id tasks2 := by
  have hids : (tasks.map Task.id).Perm (tasks2.map Task.id) := h.map Task.id
  cases h1 : tasks.map Task.id with
  | nil =>
    rw [h1] at hids
    rw [get_next_id_of_nil h1, get_next_id_of_nil hids.nil_eq.symm]
  | cons x xs =>
    cases h2 : tasks2.map Task.id with
    | nil =>
      rw [h1, h2] at hids
      exact absurd hids.symm.nil_eq (by simp)
    | cons y ys =>
      rw [h1, h2] at hids
      have m1 := (pymax_spec xs x).1
      have m2 := (pymax_spec ys y).1
      have le1 : pymax x xs ≤ pymax y ys :=
        (pymax_spec ys y).2 _ (hids.mem_iff.mp m1)
      have le2 : pymax y ys ≤ pymax x xs :=
        (pymax_spec xs x).2 _ (hids.symm.mem_iff.mp m2)
      rw [get_next_id_of_cons h1, get_next_id_of_cons h2]
      omega

/-- On a non-empty store `get_next_id` is one plus an id that is present
and dominates all ids: one plus the maximum id. -/
theorem get_next_id_nonempty (tasks : List Task) (h : tasks ≠ []) :
    ∃ t ∈ tasks, get_next_id tasks = t.id + 1 := by
  cases hm : tasks.map Task.id with
  | nil =>
    rw [List.map_eq_nil] at hm
    exact absurd hm h
  | cons x xs =>
    have hmem : pymax x xs ∈ tasks.map Task.id := by
      rw [hm]
      exact (pymax_spec xs x).1
    obtain ⟨t, ht, hid⟩ := List.mem_map.mp hmem
    refine ⟨t, ht, ?_⟩
    rw [get_next_id_of_cons hm]
    omega

/-! ## Decomposition lemmas for find, modify and remove -/

theorem find_task_some_id {tasks : List Task} {task_id : Int} {t : Task}
    (h : find_task tasks task_id = some t) : t.id = task_id := by
  have := List.find?_some h
  simpa using this

theorem find_task_some_mem {tasks : List Task} {task_id : Int} {t : Task}
    (h : find_task tasks task_id = some t) : t ∈ tasks :=
  List.mem_of_find?_eq_some h

theorem find_task_none {tasks : List Task} {task_id : Int}
    (h : find_task tasks task_id = none) : ∀ t ∈ tasks, t.id ≠ task_id := by
  intro t ht
  have := List.find?_eq_none.mp h t ht
  simpa using this

theorem apply_update_id (nt nd : String) (t : Task) :
    (apply_update nt nd t).id = t.id := by
  simp only [apply_update]
  split_ifs <;> rfl

theorem find_task_cons_self {xs : List Task} {x : Task} {task_id : Int}
    (hx : x.id = task_id) : find_task (x :: xs) task_id = some x := by
  simp [find_task, List.find?_cons, hx]

theorem find_task_cons_ne {xs : List Task} {x : Task} {task_id : Int}
    (hx : x.id ≠ task_id) :
    find_task (x :: xs) task_id = find_task xs task_id := by
  simp [find_task, List.find?_cons, hx]

/-- The first match decomposes the store around the found task. -/
theorem find_task_decomp {tasks : List Task} {task_id : Int} {t : Task}
    (h : find_task tasks task_id = some t) :
    ∃ l1 l2, tasks = l1 ++ t :: l2 ∧ ∀ u ∈ l1, u.id ≠ task_id := by
  induction tasks with
  | nil => simp [find_task] at h
  | cons x xs ih =>
    by_cases hx : x.id = task_id
    · rw [find_task_cons_self hx] at h
      cases h
      exact ⟨[], xs, rfl, by simp⟩
    · rw [find_task_cons_ne hx] at h
      obtain ⟨l1, l2, hsplit, hall⟩ := ih h
      refine ⟨x :: l1, l2, by simp [hsplit], ?_⟩
      intro u hu
      rcases List.mem_cons.mp hu with hu | hu
      · subst hu; exact hx
      · exact hall u hu

theorem find_task_append_cons (l1 l2 : List Task) (x : Task) (task_id : Int)
    (h1 : ∀ u ∈ l1, u.id ≠ task_id) (hx : x.id = task_id) :
    find_task (l1 ++ x :: l2) task_id = some x := by
  induction l1 with
  | nil => rw [List.nil_append]; exact find_task_cons_self hx
  | cons u us ih =>
    rw [List.cons_append, find_task_cons_ne (h1 u (List.mem_cons_self _ _))]
    exact ih (fun v hv => h1 v (List.mem_cons_of_mem _ hv))

theorem modify_first_cons_self {xs : List Task} {x : Task} {task_id : Int}
    {f : Task → Task} (hx : x.id = task_id) :
    modify_first (x :: xs) task_id f = f x :: xs := by
  simp [modify_first, hx]

theorem modify_first_cons_ne {xs : List Task} {x : Task} {task_id : Int}
    {f : Task → Task} (hx : x.id ≠ task_id) :
    modify_first (x :: xs) task_id f = x :: modify_first xs task_id f := by
  simp [modify_first, hx]

theorem modify_first_append_cons (l1 l2 : List Task) (x : Task)
    (task_id : Int) (f : Task → Task)
    (h1 : ∀ u ∈ l1, u.id ≠ task_id) (hx : x.id = task_id) :
    modify_first (l1 ++ x :: l2) task_id f = l1 ++ f x :: l2 := by
  induction l1 with
  | nil => rw [List.nil_append]; exact modify_first_cons_self hx
  | cons u us ih =>
    rw [List.cons_append,
      modify_first_cons_ne (h1 u (List.mem_cons_self _ _)),
      ih (fun v hv => h1 v (List.mem_cons_of_mem _ hv)), List.cons_append]

theorem list_remove_append_cons (l1 l2 : List Task) (x : Task)
    (task_id : Int) (h1 : ∀ u ∈ l1, u.id ≠ task_id) (hx : x.id = task_id) :
    list_remove (l1 ++ x :: l2) x = l1 ++ l2 := by
  induction l1 with
  | nil => simp [list_remove]
  | cons u us ih =>
    have hne : u ≠ x := by
      intro he
      exact h1 u (List.mem_cons_self _ _) (he ▸ hx)
    rw [List.cons_append, list_remove]
    rw [if_neg (by simpa using hne)]
    rw [ih (fun v hv => h1 v (List.mem_cons_of_mem _ hv)), List.cons_append]

/-! ## Id uniqueness along runs -/

theorem add_task_ids (tasks : List Task) (titleIn descIn : String) :
    ((add_task tasks titleIn descIn).1).map Task.id
      = tasks.map Task.id ++ [get_next_id tasks] := by
  simp [add_task]

theorem delete_task_sublist (tasks : List Task) (task_id : Int) :
    ((delete_task tasks task_id).1).Sublist tasks := by
  cases hf : find_task tasks task_id with
  | none => simp [delete_task, hf]
  | some t =>
    obtain ⟨l1, l2, hsplit, hall⟩ := find_task_decomp hf
    have hx := find_task_some_id hf
    simp only [delete_task, hf]
    rw [hsplit, list_remove_append_cons l1 l2 t task_id hall hx]
    exact (List.append_sublist_append_left l1).mpr (List.sublist_cons_self t l2)

/-- Under any add/delete run the ids in the store remain pairwise
distinct. -/
theorem run_from_ids_nodup :
    ∀ (ops : List Op) (tasks : List Task),
    (tasks.map Task.id).Nodup → (((run_from tasks ops).1).map Task.id).Nodup := by
  intro ops
  induction ops with
  | nil => intro tasks h; exact h
  | cons op ops ih =>
    intro tasks h
    cases op with
    | add titleIn descIn =>
      refine ih _ ?_
      simp only [apply_op]
      rw [add_task_ids]
      rw [List.nodup_append]
      exact ⟨h, List.nodup_singleton _, by
        intro a ha hb
        simp at hb
        subst hb
        exact get_next_id_not_mem tasks ha⟩
    | del task_id =>
      refine ih _ ?_
      simp only [apply_op]
      exact List.Nodup.sublist ((delete_task_sublist tasks task_id).map Task.id) h

/-! ## The interactive shell

Each call of Python's `input()` either receives a typed line, or is hit by a
`KeyboardInterrupt` (Ctrl+C), or sees end of input (`EOFError`).  We model
the standard-input stream as a list of events; end of input is the list
running out.  The outcome of a piece of interactive code is either a normal
return carrying the remaining events and the printed lines, a `sys.exit`
with its status code, or an abnormal termination by an uncaught exception
(`EOFError`, or `KeyboardInterrupt` outside `get_int_input`). -/

/-- One event on standard input: a typed line or a keyboard interrupt. -/
inductive InEvent where
  | line (s : String)
  | interrupt
deriving DecidableEq, Repr

/-- Outcome of running interactive code on an event stream. -/
inductive Eff (α : Type) where
  | ok (a : α) (rest : List InEvent) (out : List String)
  | exited (code : Nat) (out : List String)
  | crashed (out : List String)
deriving DecidableEq, Repr

/-- Prepend already-printed lines to an outcome's output. -/
def Eff.withOut (pre : List String) : Eff α → Eff α
  | Eff.ok a r out => Eff.ok a r (pre ++ out)
  | Eff.exited c out => Eff.exited c (pre ++ out)
  | Eff.crashed out => Eff.crashed (pre ++ out)

/-- Value of a digit string. -/
def digitsToNat (cs : List Char) : Nat :=
  cs.foldl (fun n c => n * 10 + (c.toNat - 48)) 0

/-- Parse a non-empty all-digit string. -/
def parseDigits (cs : List Char) : Option Nat :=
  if cs ≠ [] ∧ cs.all Char.isDigit then some (digitsToNat cs) else none

/-- Embedding of Python's `int(s)` on a typed line: surrounding whitespace is
ignored, an optional sign precedes the digits, anything else raises
`ValueError` (modelled as `none`).  (Underscore digit separators are not
modelled.) -/
def pyInt (s : String) : Option Int :=
  match (pyStrip s).data with
  | '-' :: cs => (parseDigits cs).map (fun n => -(n : Int))
  | '+' :: cs => (parseDigits cs).map (fun n => (n : Int))
  | cs => (parseDigits cs).map (fun n => (n : Int))

/-- Embedding of a bare `input(prompt)` call outside `get_int_input`
(`add_task`, `update_task`, `confirm`): an interrupt there is uncaught and
kills the process, as does end of input. -/
def input_line (prompt : String) : List InEvent → Eff String
  | [] => Eff.crashed [prompt]
  | InEvent.interrupt :: _ => Eff.crashed [prompt]
  | InEvent.line s :: rest => Eff.ok s rest [prompt]

/-- The message printed on a malformed integer. -/
def invalidIntMsg : String := "Invalid input. Please enter a valid integer."

/-- The farewell printed by the `KeyboardInterrupt` handler
(`print("\nGoodbye!")`). -/
def interruptFarewell : String := "\nGoodbye!"

/-- Embedding of `get_int_input`: re-prompts on `ValueError`, catches a
keyboard interrupt by printing the farewell and calling `sys.exit(0)`, and
crashes on end of input (`EOFError` is not caught). -/
def get_int_input (prompt : String) : List InEvent → Eff Int
  | [] => Eff.crashed [prompt]
  | InEvent.interrupt :: _ => Eff.exited 0 [prompt, interruptFarewell]
  | InEvent.line s :: rest =>
    match pyInt s with
    | some n => Eff.ok n rest [prompt]
    | none => Eff.withOut [prompt, invalidIntMsg] (get_int_input prompt rest)

/-- The menu printed by `display_menu`. -/
def menuLines : List String :=
  ["\nWelcome to my Todo App", "========", "1. Add Task", "2. View Tasks",
   "3. Update Task", "4. Delete Task", "5. Mark as Complete/Incomplete",
   "0. Exit"]

/-- Successful `get_int_input` consumes at least one event. -/
theorem get_int_input_consumes {prompt : String} :
    ∀ {evs rest : List InEvent} {n : Int} {out : List String},
    get_int_input prompt evs = Eff.ok n rest out → rest.length < evs.length := by
  intro evs
  induction evs with
  | nil => intro rest n out h; simp [get_int_input] at h
  | cons e evs ih =>
    intro rest n out h
    cases e with
    | interrupt => simp [get_int_input] at h
    | line s =>
      simp only [get_int_input] at h
      split at h
      · cases h; simp
      · cases hrec : get_int_input prompt evs with
        | ok a r o =>
          rw [hrec] at h
          simp [Eff.withOut] at h
          obtain ⟨-, h2, -⟩ := h
          subst h2
          exact Nat.lt_trans (ih hrec) (by simp)
        | exited c o => rw [hrec] at h; simp [Eff.withOut] at h
        | crashed o => rw [hrec] at h; simp [Eff.withOut] at h

/-- Embedding of `get_menu_choice`: display the menu, read an integer,
accept it if it is in `[0, 5]`, otherwise report it and start over. -/
def get_menu_choice (evs : List InEvent) : Eff Int :=
  match h : get_int_input "Choose an option: " evs with
  | Eff.ok n rest out =>
    if 0 ≤ n ∧ n ≤ 5 then Eff.ok n rest (menuLines ++ out)
    else
      Eff.withOut
        (menuLines ++ out
          ++ ["Option " ++ toString n ++ " not valid. Please choose 0-5."])
        (get_menu_choice rest)
  | Eff.exited c out => Eff.exited c (menuLines ++ out)
  | Eff.crashed out => Eff.crashed (menuLines ++ out)
termination_by evs.length
decreasing_by exact get_int_input_consumes h

/-- Embedding of the interactive part of `add_task`: read the two lines and
apply the pure store update. -/
def add_task_shell (tasks : List Task) (evs : List InEvent) : Eff (List Task) :=
  match input_line "Title: " evs with
  | Eff.exited c o => Eff.exited c o
  | Eff.crashed o => Eff.crashed o
  | Eff.ok titleIn rest1 o1 =>
    match input_line "Description: " rest1 with
    | Eff.exited c o => Eff.exited c (o1 ++ o)
    | Eff.crashed o => Eff.crashed (o1 ++ o)
    | Eff.ok descIn rest2 o2 =>
      let r := add_task tasks titleIn descIn
      Eff.ok r.1 rest2
        (o1 ++ o2
          ++ ["Task added successfully (ID: " ++ toString r.2 ++ ")."])

/-- Embedding of the interactive part of `update_task`: on a found task,
echo the current fields, read the two replacement lines and apply the pure
update; on an absent id print the not-found message without reading. -/
def update_task_shell (tasks : List Task) (task_id : Int)
    (evs : List InEvent) : Eff (List Task) :=
  match find_task tasks task_id with
  | none => Eff.ok tasks evs [notFoundMsg task_id]
  | some task =>
    let echo := ["Current title: " ++ task.title,
                 "Current description: " ++ task.desc]
    match input_line "New title (press Enter to keep): " evs with
    | Eff.exited c o => Eff.exited c (echo ++ o)
    | Eff.crashed o => Eff.crashed (echo ++ o)
    | Eff.ok titleIn rest1 o1 =>
      match input_line "New description (press Enter to keep): " rest1 with
      | Eff.exited c o => Eff.exited c (echo ++ o1 ++ o)
      | Eff.crashed o => Eff.crashed (echo ++ o1 ++ o)
      | Eff.ok descIn rest2 o2 =>
        let r := update_task tasks task_id titleIn descIn
        Eff.ok r.1 rest2 (echo ++ o1 ++ o2 ++ r.2.2.2)

/-- Successful `input_line` consumes exactly one event. -/
theorem input_line_consumes {prompt : String} {evs rest : List InEvent}
    {s : String} {out : List String}
    (h : input_line prompt evs = Eff.ok s rest out) :
    rest.length < evs.length := by
  match evs with
  | [] => simp [input_line] at h
  | InEvent.interrupt :: evs => simp [input_line] at h
  | InEvent.line t :: evs =>
    simp [input_line] at h
    obtain ⟨-, h2, -⟩ := h
    subst h2
    simp

/-- Successful `get_menu_choice` consumes at least one event. -/
theorem get_menu_choice_consumes :
    ∀ {evs rest : List InEvent} {n : Int} {out : List String},
    get_menu_choice evs = Eff.ok n rest out → rest.length < evs.length := by
  intro evs
  induction evs using get_menu_choice.induct with
  | case1 evs n' rest' out' hint hrange =>
    intro rest n out h
    rw [get_menu_choice] at h
    split at h
    next n2 rest2 out2 heq =>
      rw [hint] at heq
      cases heq
      split at h
      · cases h; exact get_int_input_consumes hint
      · exact absurd hrange (by assumption)
    next => simp at h
    next => simp at h
  | case2 evs n' rest' out' hint hrange ih =>
    intro rest n out h
    rw [get_menu_choice] at h
    split at h
    next n2 rest2 out2 heq =>
      rw [hint] at heq
      cases heq
      split at h
      · exact absurd (by assumption) hrange
      · cases hrec : get_menu_choice rest' with
        | ok a r o =>
          rw [hrec] at h
          simp [Eff.withOut] at h
          obtain ⟨-, h2, -⟩ := h
          subst h2
          exact Nat.lt_trans (ih hrec) (get_int_input_consumes hint)
        | exited c o => rw [hrec] at h; simp [Eff.withOut] at h
        | crashed o => rw [hrec] at h; simp [Eff.withOut] at h
    next => simp at h
    next => simp at h
  | case3 evs c o hint =>
    intro rest n out h
    rw [get_menu_choice] at h
    split at h <;> simp_all
  | case4 evs o hint =>
    intro rest n out h
    rw [get_menu_choice] at h
    split at h <;> simp_all

/-- Successful `add_task_shell` consumes at least one event. -/
theorem add_task_shell_consumes {tasks tasks' : List Task}
    {evs rest : List InEvent} {out : List String}
    (h : add_task_shell tasks evs = Eff.ok tasks' rest out) :
    rest.length < evs.length := by
  rw [add_task_shell] at h
  split at h
  · simp at h
  · simp at h
  next t r1 o1 h1 =>
    split at h
    · simp at h
    · simp at h
    next d r2 o2 h2 =>
      simp at h
      obtain ⟨-, hr, -⟩ := h
      subst hr
      exact Nat.lt_trans (input_line_consumes h2) (input_line_consumes h1)

/-- Successful `update_task_shell` does not grow the event stream. -/
theorem update_task_shell_consumes {tasks tasks' : List Task} {task_id : Int}
    {evs rest : List InEvent} {out : List String}
    (h : update_task_shell tasks task_id evs = Eff.ok tasks' rest out) :
    rest.length ≤ evs.length := by
  rw [update_task_shell] at h
  split at h
  · simp at h
    obtain ⟨-, hr, -⟩ := h
    subst hr
    exact Nat.le_refl _
  · split at h
    · simp at h
    · simp at h
    next t r1 o1 h1 =>
      split at h
      · simp at h
      · simp at h
      next d r2 o2 h2 =>
        simp at h
        obtain ⟨-, hr, -⟩ := h
        subst hr
        exact Nat.le_of_lt
          (Nat.lt_trans (input_line_consumes h2) (input_line_consumes h1))

/-- The farewell printed on the normal exit path (menu choice 0). -/
def normalFarewell : String := "Goodbye! Have a nice day."

/-- Embedding of `main`'s event loop from a given store: read a menu choice
and dispatch until choice 0 (normal return), a `sys.exit` from the interrupt
handler, or an uncaught exception. -/
def main_loop (tasks : List Task) (evs : List InEvent) : Eff Unit :=
  match hm : get_menu_choice evs with
  | Eff.exited c out => Eff.exited c out
  | Eff.crashed out => Eff.crashed out
  | Eff.ok choice rest out =>
    if choice = 0 then Eff.ok () rest (out ++ [normalFarewell])
    else if choice = 1 then
      match ha : add_task_shell tasks rest with
      | Eff.exited c o2 => Eff.exited c (out ++ o2)
      | Eff.crashed o2 => Eff.crashed (out ++ o2)
      | Eff.ok tasks2 rest2 o2 =>
        Eff.withOut (out ++ o2) (main_loop tasks2 rest2)
    else if choice = 2 then
      Eff.withOut (out ++ print_tasks tasks) (main_loop tasks rest)
    else if choice = 3 then
      match hi : get_int_input "Enter task ID to update: " rest with
      | Eff.exited c o2 => Eff.exited c (out ++ o2)
      | Eff.crashed o2 => Eff.crashed (out ++ o2)
      | Eff.ok tid rest2 o2 =>
        match hu : update_task_shell tasks tid rest2 with
        | Eff.exited c o3 => Eff.exited c (out ++ o2 ++ o3)
        | Eff.crashed o3 => Eff.crashed (out ++ o2 ++ o3)
        | Eff.ok tasks2 rest3 o3 =>
          Eff.withOut (out ++ o2 ++ o3) (main_loop tasks2 rest3)
    else if choice = 4 then
      match hi : get_int_input "Enter task ID to delete: " rest with
      | Eff.exited c o2 => Eff.exited c (out ++ o2)
      | Eff.crashed o2 => Eff.crashed (out ++ o2)
      | Eff.ok tid rest2 o2 =>
        let r := delete_task tasks tid
        Eff.withOut (out ++ o2 ++ r.2.2) (main_loop r.1 rest2)
    else
      match hi : get_int_input "Enter task ID to toggle: " rest with
      | Eff.exited c o2 => Eff.exited c (out ++ o2)
      | Eff.crashed o2 => Eff.crashed (out ++ o2)
      | Eff.ok tid rest2 o2 =>
        let r := toggle_complete tasks tid
        Eff.withOut (out ++ o2 ++ r.2.2) (main_loop r.1 rest2)
termination_by evs.length
decreasing_by
· exact Nat.lt_trans (add_task_shell_consumes ha) (get_menu_choice_consumes hm)
· exact get_menu_choice_consumes hm
· exact Nat.lt_of_le_of_lt (update_task_shell_consumes hu)
    (Nat.lt_trans (get_int_input_consumes hi) (get_menu_choice_consumes hm))
· exact Nat.lt_trans (get_int_input_consumes hi) (get_menu_choice_consumes hm)
· exact Nat.lt_trans (get_int_input_consumes hi) (get_menu_choice_consumes hm)

/-- Embedding of `main`: the loop starts from the empty store. -/
def main_run (evs : List InEvent) : Eff Unit :=
  main_loop [] evs

theorem get_menu_choice_line1 :
    get_menu_choice [InEvent.line "1", InEvent.interrupt]
      = Eff.ok 1 [InEvent.interrupt] (menuLines ++ ["Choose an option: "]) := by
  rw [get_menu_choice]
  have h1 : get_int_input "Choose an option: " [InEvent.line "1", InEvent.interrupt]
      = Eff.ok 1 [InEvent.interrupt] ["Choose an option: "] := by decide
  split
  next n2 rest2 out2 heq => rw [h1] at heq; cases heq; norm_num
  next c2 o2 heq => rw [h1] at heq; cases heq
  next o2 heq => rw [h1] at heq; cases heq

/-- An interrupt at the very first menu prompt: clean exit with the
farewell. -/
theorem main_run_interrupt :
    main_run [InEvent.interrupt]
      = Eff.exited 0 (menuLines ++ ["Choose an option: ", interruptFarewell]) := by
  have hmc : get_menu_choice [InEvent.interrupt]
      = Eff.exited 0 (menuLines ++ ["Choose an option: ", interruptFarewell]) := by
    rw [get_menu_choice]
    have h1 : get_int_input "Choose an option: " [InEvent.interrupt]
        = Eff.exited 0 ["Choose an option: ", interruptFarewell] := by decide
    split
    next n2 rest2 out2 heq => rw [h1] at heq; cases heq
    next c2 o2 heq => rw [h1] at heq; cases heq; rfl
    next o2 heq => rw [h1] at heq; cases heq
  rw [main_run, main_loop]
  split
  next c out heq => rw [hmc] at heq; cases heq; rfl
  next out heq => rw [hmc] at heq; cases heq
  next choice rest out heq => rw [hmc] at heq; cases heq

/-- Menu choice 0: normal termination with the normal farewell. -/
theorem main_run_menu_exit :
    main_run [InEvent.line "0"]
      = Eff.ok () [] (menuLines ++ ["Choose an option: ", normalFarewell]) := by
  have hmc : get_menu_choice [InEvent.line "0"]
      = Eff.ok 0 [] (menuLines ++ ["Choose an option: "]) := by
    rw [get_menu_choice]
    have h1 : get_int_input "Choose an option: " [InEvent.line "0"]
        = Eff.ok 0 [] ["Choose an option: "] := by decide
    split
    next n2 rest2 out2 heq => rw [h1] at heq; cases heq; norm_num
    next c2 o2 heq => rw [h1] at heq; cases heq
    next o2 heq => rw [h1] at heq; cases heq
  rw [main_run, main_loop]
  split
  next c out heq => rw [hmc] at heq; cases heq
  next out heq => rw [hmc] at heq; cases heq
  next choice rest out heq =>
    rw [hmc] at heq
    cases heq
    norm_num

/-! ## Exit-path invariants of the shell -/

/-- Every `sys.exit` outcome has status 0 and printed the interrupt
farewell as its last line. -/
def GoodExit {α : Type} (e : Eff α) : Prop :=
  ∀ c out, e = Eff.exited c out → c = 0 ∧ ∃ p, out = p ++ [interruptFarewell]

/-- Every normal return of the loop printed the normal farewell as its last
line. -/
def GoodOk (e : Eff Unit) : Prop :=
  ∀ rest out, e = Eff.ok () rest out → ∃ p, out = p ++ [normalFarewell]

theorem goodExit_withOut {α : Type} {e : Eff α} (pre : List String)
    (h : GoodExit e) : GoodExit (Eff.withOut pre e) := by
  intro c out hout
  cases e with
  | ok a r o => simp [Eff.withOut] at hout
  | crashed o => simp [Eff.withOut] at hout
  | exited c' o =>
    simp [Eff.withOut] at hout
    obtain ⟨hc, ho⟩ := hout
    obtain ⟨hc0, p, hp⟩ := h c' o rfl
    subst hc
    subst ho
    exact ⟨hc0, pre ++ p, by rw [hp, List.append_assoc]⟩

theorem goodOk_withOut {e : Eff Unit} (pre : List String)
    (h : GoodOk e) : GoodOk (Eff.withOut pre e) := by
  intro rest out hout
  cases e with
  | ok a r o =>
    simp [Eff.withOut] at hout
    obtain ⟨-, ho⟩ := hout
    obtain ⟨p, hp⟩ := h r o rfl
    subst ho
    exact ⟨pre ++ p, by rw [hp, List.append_assoc]⟩
  | crashed o => simp [Eff.withOut] at hout
  | exited c' o => simp [Eff.withOut] at hout

/-- The only `sys.exit` in the program is in the interrupt handler of
`get_int_input`, and it always prints the farewell just before. -/
theorem get_int_input_goodExit (prompt : String) :
    ∀ evs, GoodExit (get_int_input prompt evs) := by
  intro evs
  induction evs with
  | nil => intro c out h; simp [get_int_input] at h
  | cons e evs ih =>
    intro c out h
    cases e with
    | interrupt =>
      simp [get_int_input] at h
      obtain ⟨hc, ho⟩ := h
      subst hc
      subst ho
      exact ⟨rfl, [prompt], rfl⟩
    | line s =>
      simp only [get_int_input] at h
      split at h
      · simp at h
      · cases hrec : get_int_input prompt evs with
        | ok a r o => rw [hrec] at h; simp [Eff.withOut] at h
        | crashed o => rw [hrec] at h; simp [Eff.withOut] at h
        | exited c' o =>
          rw [hrec] at h
          simp [Eff.withOut] at h
          obtain ⟨hc, ho⟩ := h
          obtain ⟨hc0, p, hp⟩ := ih c' o hrec
          subst hc
          subst ho
          exact ⟨hc0, [prompt, invalidIntMsg] ++ p, by simp [hp]⟩

/-- A bare `input()` call never calls `sys.exit`. -/
theorem input_line_no_exit (prompt : String) (evs : List InEvent)
    (c : Nat) (o : List String) : input_line prompt evs ≠ Eff.exited c o := by
  match evs with
  | [] => simp [input_line]
  | InEvent.interrupt :: evs => simp [input_line]
  | InEvent.line s :: evs => simp [input_line]

theorem get_menu_choice_goodExit :
    ∀ evs, GoodExit (get_menu_choice evs) := by
  intro evs
  induction evs using get_menu_choice.induct with
  | case1 evs n' rest' out' hint hrange =>
    intro c out h
    rw [get_menu_choice] at h
    split at h
    next n2 rest2 out2 heq =>
      rw [hint] at heq
      cases heq
      split at h
      · simp at h
      · exact absurd hrange (by assumption)
    next c2 o2 heq => rw [hint] at heq; cases heq
    next o2 heq => rw [hint] at heq; cases heq
  | case2 evs n' rest' out' hint hrange ih =>
    intro c out h
    rw [get_menu_choice] at h
    split at h
    next n2 rest2 out2 heq =>
      rw [hint] at heq
      cases heq
      split at h
      · exact absurd (by assumption) hrange
      · exact goodExit_withOut _ ih c out h
    next c2 o2 heq => rw [hint] at heq; cases heq
    next o2 heq => rw [hint] at heq; cases heq
  | case3 evs c' o' hint =>
    intro c out h
    rw [get_menu_choice] at h
    split at h
    next n2 rest2 out2 heq => rw [hint] at heq; cases heq
    next c2 o2 heq =>
      rw [hint] at heq
      cases heq
      simp at h
      obtain ⟨hc, ho⟩ := h
      subst hc
      subst ho
      obtain ⟨hc0, p, hp⟩ := get_int_input_goodExit "Choose an option: " evs c' o' hint
      exact ⟨hc0, menuLines ++ p, by simp [hp]⟩
    next o2 heq => rw [hint] at heq; cases heq
  | case4 evs o' hint =>
    intro c out h
    rw [get_menu_choice] at h
    split at h
    next n2 rest2 out2 heq => rw [hint] at heq; cases heq
    next c2 o2 heq => rw [hint] at heq; cases heq
    next o2 heq => rw [hint] at heq; cases heq; simp at h

/-- The interactive `add_task` never calls `sys.exit` (an interrupt at its
prompts is uncaught instead). -/
theorem add_task_shell_goodExit (tasks : List Task) (evs : List InEvent) :
    GoodExit (add_task_shell tasks evs) := by
  intro c out h
  rw [add_task_shell] at h
  split at h
  next c2 o2 h1 => exact absurd h1 (input_line_no_exit _ _ _ _)
  next o2 h1 => simp at h
  next t r1 o1 h1 =>
    split at h
    next c2 o2 h2 => exact absurd h2 (input_line_no_exit _ _ _ _)
    next o2 h2 => simp at h
    next d r2 o2 h2 => simp at h

/-- The interactive `update_task` never calls `sys.exit`. -/
theorem update_task_shell_goodExit (tasks : List Task) (task_id : Int)
    (evs : List InEvent) : GoodExit (update_task_shell tasks task_id evs) := by
  intro c out h
  rw [update_task_shell] at h
  split at h
  · simp at h
  · split at h
    next c2 o2 h1 => exact absurd h1 (input_line_no_exit _ _ _ _)
    next o2 h1 => simp at h
    next t r1 o1 h1 =>
      split at h
      next c2 o2 h2 => exact absurd h2 (input_line_no_exit _ _ _ _)
      next o2 h2 => simp at h
      next d r2 o2 h2 => simp at h

/-- Every `sys.exit` reachable from the event loop has status 0 and printed
the interrupt farewell last: the interrupt handler of `get_int_input` is the
only abnormal-but-clean exit of `main`. -/
theorem main_loop_goodExit :
    ∀ (N : Nat) (evs : List InEvent), evs.length ≤ N → ∀ tasks,
    GoodExit (main_loop tasks evs) := by
  intro N
  induction N using Nat.strong_induction_on with
  | _ N ih =>
  intro evs hlen tasks c out h
  rw [main_loop] at h
  split at h
  next c2 out2 hm =>
    cases h
    exact get_menu_choice_goodExit evs _ _ hm
  next out2 hm => simp at h
  next choice rest out2 hm =>
    have hmlt : rest.length < evs.length := get_menu_choice_consumes hm
    split at h
    · simp at h
    · split at h
      · split at h
        next c2 o2 ha =>
          cases h
          obtain ⟨hc0, p, hp⟩ := add_task_shell_goodExit tasks rest c o2 ha
          exact ⟨hc0, out2 ++ p, by simp [hp]⟩
        next o2 ha => simp at h
        next tasks2 rest2 o2 ha =>
          have hlt : rest2.length < evs.length :=
            Nat.lt_trans (add_task_shell_consumes ha) hmlt
          exact goodExit_withOut _
            (ih rest2.length (Nat.lt_of_lt_of_le hlt hlen) rest2
              (Nat.le_refl _) tasks2) c out h
      · split at h
        · exact goodExit_withOut _
            (ih rest.length (Nat.lt_of_lt_of_le hmlt hlen) rest
              (Nat.le_refl _) tasks) c out h
        · split at h
          · split at h
            next c2 o2 hi =>
              cases h
              obtain ⟨hc0, p, hp⟩ :=
                get_int_input_goodExit "Enter task ID to update: " rest c o2 hi
              exact ⟨hc0, out2 ++ p, by simp [hp]⟩
            next o2 hi => simp at h
            next tid rest2 o2 hi =>
              split at h
              next c2 o3 hu =>
                cases h
                obtain ⟨hc0, p, hp⟩ :=
                  update_task_shell_goodExit tasks tid rest2 c o3 hu
                exact ⟨hc0, out2 ++ o2 ++ p, by simp [hp]⟩
              next o3 hu => simp at h
              next tasks2 rest3 o3 hu =>
                have hlt : rest3.length < evs.length :=
                  Nat.lt_of_le_of_lt (update_task_shell_consumes hu)
                    (Nat.lt_trans (get_int_input_consumes hi) hmlt)
                exact goodExit_withOut _
                  (ih rest3.length (Nat.lt_of_lt_of_le hlt hlen) rest3
                    (Nat.le_refl _) tasks2) c out h
          · split at h
            · split at h
              next c2 o2 hi =>
                cases h
                obtain ⟨hc0, p, hp⟩ :=
                  get_int_input_goodExit "Enter task ID to delete: " rest c o2 hi
                exact ⟨hc0, out2 ++ p, by simp [hp]⟩
              next o2 hi => simp at h
              next tid rest2 o2 hi =>
                have hlt : rest2.length < evs.length :=
                  Nat.lt_trans (get_int_input_consumes hi) hmlt
                exact goodExit_withOut _
                  (ih rest2.length (Nat.lt_of_lt_of_le hlt hlen) rest2
                    (Nat.le_refl _) _) c out h
            · split at h
              next c2 o2 hi =>
                cases h
                obtain ⟨hc0, p, hp⟩ :=
                  get_int_input_goodExit "Enter task ID to toggle: " rest c o2 hi
                exact ⟨hc0, out2 ++ p, by simp [hp]⟩
              next o2 hi => simp at h
              next tid rest2 o2 hi =>
                have hlt : rest2.length < evs.length :=
                  Nat.lt_trans (get_int_input_consumes hi) hmlt
                exact goodExit_withOut _
                  (ih rest2.length (Nat.lt_of_lt_of_le hlt hlen) rest2
                    (Nat.le_refl _) _) c out h

/-- Every normal return of the event loop printed the normal farewell last:
choice 0 is the only way the loop ends normally. -/
theorem main_loop_goodOk :
    ∀ (N : Nat) (evs : List InEvent), evs.length ≤ N → ∀ tasks,
    GoodOk (main_loop tasks evs) := by
  intro N
  induction N using Nat.strong_induction_on with
  | _ N ih =>
  intro evs hlen tasks rest0 out h
  rw [main_loop] at h
  split at h
  next c2 out2 hm => simp at h
  next out2 hm => simp at h
  next choice rest out2 hm =>
    have hmlt : rest.length < evs.length := get_menu_choice_consumes hm
    split at h
    · cases h
      exact ⟨out2, rfl⟩
    · split at h
      · split at h
        next c2 o2 ha => simp at h
        next o2 ha => simp at h
        next tasks2 rest2 o2 ha =>
          have hlt : rest2.length < evs.length :=
            Nat.lt_trans (add_task_shell_consumes ha) hmlt
          exact goodOk_withOut _
            (ih rest2.length (Nat.lt_of_lt_of_le hlt hlen) rest2
              (Nat.le_refl _) tasks2) rest0 out h
      · split at h
        · exact goodOk_withOut _
            (ih rest.length (Nat.lt_of_lt_of_le hmlt hlen) rest
              (Nat.le_refl _) tasks) rest0 out h
        · split at h
          · split at h
            next c2 o2 hi => simp at h
            next o2 hi => simp at h
            next tid rest2 o2 hi =>
              split at h
              next c2 o3 hu => simp at h
              next o3 hu => simp at h
              next tasks2 rest3 o3 hu =>
                have hlt : rest3.length < evs.length :=
                  Nat.lt_of_le_of_lt (update_task_shell_consumes hu)
                    (Nat.lt_trans (get_int_input_consumes hi) hmlt)
                exact goodOk_withOut _
                  (ih rest3.length (Nat.lt_of_lt_of_le hlt hlen) rest3
                    (Nat.le_refl _) tasks2) rest0 out h
          · split at h
            · split at h
              next c2 o2 hi => simp at h
              next o2 hi => simp at h
              next tid rest2 o2 hi =>
                have hlt : rest2.length < evs.length :=
                  Nat.lt_trans (get_int_input_consumes hi) hmlt
                exact goodOk_withOut _
                  (ih rest2.length (Nat.lt_of_lt_of_le hlt hlen) rest2
                    (Nat.le_refl _) _) rest0 out h
            · split at h
              next c2 o2 hi => simp at h
              next o2 hi => simp at h
              next tid rest2 o2 hi =>
                have hlt : rest2.length < evs.length :=
                  Nat.lt_trans (get_int_input_consumes hi) hmlt
                exact goodOk_withOut _
                  (ih rest2.length (Nat.lt_of_lt_of_le hlt hlen) rest2
                    (Nat.le_refl _) _) rest0 out h

/-! ## The claims -/

/-- Claim C1, counterexample: ids are not permanently retired.  From the
empty store, `add` assigns id 1, deleting id 1 (the maximum) empties the
store, and the next `add` assigns id 1 again, so the run assigns the id
sequence `[1, 1]`, which is not duplicate-free. -/
theorem C1_counterexample :
    (run_ops [Op.add "a" "b", Op.del 1, Op.add "c" "d"]).2 = [1, 1] ∧
    ¬ ((run_ops [Op.add "a" "b", Op.del 1, Op.add "c" "d"]).2).Nodup := by
  constructor
  · decide
  · decide

/-- Claim C1, amended: every id assigned by `add` is strictly greater than
every id in the store at that moment, so the ids inside the store stay
pairwise distinct along every add/delete run from the empty store; and a
deleted id `k` is not reassigned while any task with id at least `k`
remains — but when `k` was the maximum, a later add may reassign it. -/
theorem C1_amended_ids :
    (∀ tasks : List Task, ∀ t ∈ tasks, t.id < get_next_id tasks) ∧
    (∀ ops : List Op, (((run_ops ops).1).map Task.id).Nodup) ∧
    (∀ (tasks : List Task) (k : Int), (∃ t ∈ tasks, k ≤ t.id) →
      k < get_next_id tasks) := by
  refine ⟨get_next_id_gt, ?_, get_next_id_gt_of_le⟩
  intro ops
  exact run_from_ids_nodup ops [] (by simp)

/-- Witness for C1: instantiation at the one-task store with id 5 and at
`k = 3`. -/
theorem C1_witness :
    ((5 : Int) < get_next_id [⟨5, "", "", false⟩]) ∧
    ((3 : Int) < get_next_id [⟨5, "", "", false⟩]) :=
  ⟨C1_amended_ids.1 [⟨5, "", "", false⟩] ⟨5, "", "", false⟩ (by decide),
   C1_amended_ids.2.2 [⟨5, "", "", false⟩] 3
     ⟨⟨5, "", "", false⟩, by decide, by decide⟩⟩

/-- Claim C3, counterexample: the keyboard interrupt is caught only inside
`get_int_input`.  With the event stream `[choice 1, interrupt]` the
interrupt arrives while the program waits at the `Title: ` prompt of
`add_task`, where it is uncaught: the process terminates abnormally with a
traceback instead of printing the farewell and exiting with success. -/
theorem C3_counterexample :
    main_run [InEvent.line "1", InEvent.interrupt]
      = Eff.crashed (menuLines ++ ["Choose an option: ", "Title: "]) ∧
    ¬ ∃ code out, main_run [InEvent.line "1", InEvent.interrupt]
      = Eff.exited code out := by
  have ha : add_task_shell [] [InEvent.interrupt] = Eff.crashed ["Title: "] := by
    decide
  have hmain : main_run [InEvent.line "1", InEvent.interrupt]
      = Eff.crashed (menuLines ++ ["Choose an option: ", "Title: "]) := by
    rw [main_run, main_loop]
    split
    next c out heq => rw [get_menu_choice_line1] at heq; cases heq
    next out heq => rw [get_menu_choice_line1] at heq; cases heq
    next choice rest out heq =>
      rw [get_menu_choice_line1] at heq
      cases heq
      norm_num
      split
      next c o2 heq2 => rw [ha] at heq2; cases heq2
      next o2 heq2 => rw [ha] at heq2; cases heq2; simp
      next t2 r2 o2 heq2 => rw [ha] at heq2; cases heq2
  refine ⟨hmain, ?_⟩
  rintro ⟨code, out, h⟩
  rw [hmain] at h
  cases h

/-- Claim C3, amended: an interrupt arriving while the program waits at one
of the integer prompts (the menu prompt or a task-id prompt) prints the
farewell and exits with status 0; every `sys.exit` the program performs is
of that form, and every normal termination goes through menu choice 0 and
prints the normal farewell last.  (An interrupt at the title/description
text prompts, or end of input, terminates the process abnormally instead.) -/
theorem C3_amended_interrupt_paths :
    (∀ (prompt : String) (rest : List InEvent),
      get_int_input prompt (InEvent.interrupt :: rest)
        = Eff.exited 0 [prompt, interruptFarewell]) ∧
    (∀ (evs : List InEvent) (c : Nat) (out : List String),
      main_run evs = Eff.exited c out →
      c = 0 ∧ ∃ p, out = p ++ [interruptFarewell]) ∧
    (∀ (evs rest : List InEvent) (out : List String),
      main_run evs = Eff.ok () rest out →
      ∃ p, out = p ++ [normalFarewell]) := by
  refine ⟨fun prompt rest => rfl, ?_, ?_⟩
  · intro evs c out h
    exact main_loop_goodExit evs.length evs (Nat.le_refl _) [] c out h
  · intro evs rest out h
    exact main_loop_goodOk evs.length evs (Nat.le_refl _) [] rest out h

/-- Witness for C3: the interrupt at the menu prompt exits with status 0
and the farewell last; menu choice 0 ends with the normal farewell. -/
theorem C3_witness :
    ((0 : Nat) = 0 ∧ ∃ p, menuLines ++ ["Choose an option: ", interruptFarewell]
        = p ++ [interruptFarewell]) ∧
    (∃ p, menuLines ++ ["Choose an option: ", normalFarewell]
        = p ++ [normalFarewell]) :=
  ⟨C3_amended_interrupt_paths.2.1 [InEvent.interrupt] 0 _ main_run_interrupt,
   C3_amended_interrupt_paths.2.2 [InEvent.line "0"] [] _ main_run_menu_exit⟩

/-- Claim C4: `get_next_id` is 1 on the empty store; on a non-empty store
it is one plus an id that is present and dominates every id (one plus the
maximum id); and it is invariant under reordering of the store, hence
independent of insertion order and of how the store was reached. -/
theorem C4_next_id_formula :
    get_next_id [] = 1 ∧
    (∀ tasks : List Task, tasks ≠ [] →
      (∃ t ∈ tasks, get_next_id tasks = t.id + 1) ∧
      ∀ t ∈ tasks, t.id + 1 ≤ get_next_id tasks) ∧
    (∀ tasks tasks2 : List Task, tasks.Perm tasks2 →
      get_next_id tasks = get_next_id tasks2) := by
  refine ⟨by decide, ?_, get_next_id_perm⟩
  intro tasks h
  refine ⟨get_next_id_nonempty tasks h, ?_⟩
  intro t ht
  have := get_next_id_gt tasks t ht
  omega

/-- Witness for C4: instantiation at a two-task store and its reversal. -/
theorem C4_witness :
    ((∃ t ∈ [(⟨2, "a", "b", false⟩ : Task), ⟨5, "c", "d", true⟩],
        get_next_id [(⟨2, "a", "b", false⟩ : Task), ⟨5, "c", "d", true⟩]
          = t.id + 1) ∧
      ∀ t ∈ [(⟨2, "a", "b", false⟩ : Task), ⟨5, "c", "d", true⟩],
        t.id + 1 ≤ get_next_id [(⟨2, "a", "b", false⟩ : Task), ⟨5, "c", "d", true⟩]) ∧
    get_next_id [(⟨2, "a", "b", false⟩ : Task), ⟨5, "c", "d", true⟩]
      = get_next_id [(⟨5, "c", "d", true⟩ : Task), ⟨2, "a", "b", false⟩] :=
  ⟨C4_next_id_formula.2.1 _ (by decide),
   C4_next_id_formula.2.2 _ _ (by decide)⟩

/-- Claim C5: `add` returns `get_next_id` of the store before the call,
grows the store by exactly one task, leaves the existing tasks and their
order untouched, and puts the new task — with the assigned id, the stripped
inputs and `complete = false` — at the end.  On the empty store the result
is a single task with id 1, rendered as `1. [ ] Buy milk - 2%`. -/
theorem C5_add_task_spec :
    (∀ (tasks : List Task) (titleIn descIn : String),
      (add_task tasks titleIn descIn).2 = get_next_id tasks ∧
      ((add_task tasks titleIn descIn).1).length = tasks.length + 1 ∧
      ((add_task tasks titleIn descIn).1).take tasks.length = tasks ∧
      ((add_task tasks titleIn descIn).1).getLast? =
        some ⟨get_next_id tasks, pyStrip titleIn, pyStrip descIn, false⟩) ∧
    (add_task [] "Buy milk" "2%").1 = [⟨1, "Buy milk", "2%", false⟩] ∧
    print_tasks ((add_task [] "Buy milk" "2%").1)
      = ["Tasks:", "------", "1. [ ] Buy milk - 2%"] := by
  refine ⟨?_, by decide, by decide⟩
  intro tasks titleIn descIn
  refine ⟨rfl, by simp [add_task], ?_, by simp [add_task]⟩
  show (tasks ++ [_]).take tasks.length = tasks
  rw [List.take_left]

/-- Claim C9: listing the empty store yields exactly the no-tasks line; a
non-empty store yields the header, the dash line, and one rendered line
per task in store order, with `[X]` for a completed task and `[ ]`
otherwise.  The embedding is a pure function of the store, so it cannot
mutate it and its output depends on nothing else. -/
theorem C9_print_tasks_spec :
    print_tasks [] = ["No tasks yet. Add one!"] ∧
    (∀ tasks : List Task, tasks ≠ [] →
      (print_tasks tasks).length = tasks.length + 2 ∧
      (print_tasks tasks).head? = some "Tasks:" ∧
      (print_tasks tasks)[1]? = some "------" ∧
      ∀ i : Nat, (print_tasks tasks)[i + 2]? = (tasks[i]?).map render_task) ∧
    print_tasks [⟨1, "Buy milk", "2%", false⟩, ⟨2, "T", "D", true⟩]
      = ["Tasks:", "------", "1. [ ] Buy milk - 2%", "2. [X] T - D"] := by
  refine ⟨by decide, ?_, by decide⟩
  intro tasks h
  have hne : tasks.isEmpty = false := by simpa using h
  refine ⟨by simp [print_tasks, hne], by simp [print_tasks, hne],
    by simp [print_tasks, hne], ?_⟩
  intro i
  simp [print_tasks, hne]

/-- Witness for C9: instantiation at a one-task store, index 0. -/
theorem C9_witness :
    (print_tasks [⟨1, "A", "B", false⟩]).length = 3 ∧
    (print_tasks [⟨1, "A", "B", false⟩])[0 + 2]?
      = ([(⟨1, "A", "B", false⟩ : Task)][0]?).map render_task :=
  ⟨(C9_print_tasks_spec.2.1 [⟨1, "A", "B", false⟩] (by decide)).1,
   (C9_print_tasks_spec.2.1 [⟨1, "A", "B", false⟩] (by decide)).2.2.2 0⟩

/-- Claim C2: on a store containing the id, `update` reports the task as
found, and reports a change exactly when at least one of the two inputs is
non-empty after stripping; in particular Scenario 4 — an empty new title
with new description `"X"` on task `{title: "A", desc: "B"}` — yields
found and changed, and the task becomes `{title: "A", desc: "X"}`. -/
theorem C2_update_found_changed :
    (∀ (tasks : List Task) (task_id : Int) (t : Task) (titleIn descIn : String),
      find_task tasks task_id = some t →
      (update_task tasks task_id titleIn descIn).2.1 = true ∧
      ((update_task tasks task_id titleIn descIn).2.2.1 = false ↔
        (pyStrip titleIn = "" ∧ pyStrip descIn = ""))) ∧
    update_task [⟨1, "A", "B", false⟩] 1 "" "X"
      = ([⟨1, "A", "X", false⟩], true, true, ["Task updated."]) := by
  refine ⟨?_, by decide⟩
  intro tasks task_id t titleIn descIn hf
  constructor
  · simp [update_task, hf]
  · simp [update_task, hf]

/-- Witness for C2: instantiation at the one-task store with a non-empty
new title. -/
theorem C2_witness :
    (update_task [⟨1, "A", "B", false⟩] 1 "X" "").2.1 = true ∧
    ((update_task [⟨1, "A", "B", false⟩] 1 "X" "").2.2.1 = false ↔
      (pyStrip "X" = "" ∧ pyStrip "" = "")) :=
  C2_update_found_changed.1 [⟨1, "A", "B", false⟩] 1 ⟨1, "A", "B", false⟩
    "X" "" (by decide)

/-- Claim C6: on a store containing the id, `toggle` reports success, the
found task has its `complete` flag flipped (nothing else), the printed
message names the resulting state, and toggling the same id again restores
the store exactly. -/
theorem C6_toggle_involution :
    ∀ (tasks : List Task) (task_id : Int) (t : Task),
    find_task tasks task_id = some t →
    (toggle_complete tasks task_id).2.1 = true ∧
    find_task (toggle_complete tasks task_id).1 task_id
      = some ⟨t.id, t.title, t.desc, !t.complete⟩ ∧
    ((toggle_complete tasks task_id).2.2 = ["Task marked as complete."] ↔
      t.complete = false) ∧
    (toggle_complete (toggle_complete tasks task_id).1 task_id).1 = tasks := by
  intro tasks task_id t hf
  obtain ⟨l1, l2, hsplit, hall⟩ := find_task_decomp hf
  have hid := find_task_some_id hf
  have hstore1 : (toggle_complete tasks task_id).1
      = l1 ++ (⟨t.id, t.title, t.desc, !t.complete⟩ : Task) :: l2 := by
    simp only [toggle_complete, hf]
    rw [hsplit, modify_first_append_cons l1 l2 t task_id _ hall hid]
  have hfind1 : find_task (toggle_complete tasks task_id).1 task_id
      = some ⟨t.id, t.title, t.desc, !t.complete⟩ := by
    rw [hstore1]
    exact find_task_append_cons l1 l2 _ task_id hall hid
  refine ⟨by simp [toggle_complete, hf], hfind1, ?_, ?_⟩
  · simp only [toggle_complete, hf]
    cases hc : t.complete
    · exact iff_of_true (by simp) rfl
    · exact iff_of_false (by simp) (by simp)
  · rw [hstore1]
    have hfind2 : find_task
        (l1 ++ (⟨t.id, t.title, t.desc, !t.complete⟩ : Task) :: l2) task_id
        = some ⟨t.id, t.title, t.desc, !t.complete⟩ :=
      find_task_append_cons l1 l2 _ task_id hall hid
    simp only [toggle_complete, hfind2]
    rw [modify_first_append_cons l1 l2
      (⟨t.id, t.title, t.desc, !t.complete⟩ : Task) task_id _ hall hid]
    rw [hsplit]
    have ht : ({ (⟨t.id, t.title, t.desc, !t.complete⟩ : Task) with
        complete := !!t.complete } : Task) = t := by
      cases t
      simp
    rw [ht]

/-- Witness for C6: instantiation at the one-task store. -/
theorem C6_witness :
    (toggle_complete [⟨1, "A", "B", false⟩] 1).2.1 = true ∧
    find_task (toggle_complete [⟨1, "A", "B", false⟩] 1).1 1
      = some ⟨1, "A", "B", !false⟩ ∧
    ((toggle_complete [⟨1, "A", "B", false⟩] 1).2.2
      = ["Task marked as complete."] ↔ false = false) ∧
    (toggle_complete (toggle_complete [⟨1, "A", "B", false⟩] 1).1 1).1
      = [⟨1, "A", "B", false⟩] :=
  C6_toggle_involution [⟨1, "A", "B", false⟩] 1 ⟨1, "A", "B", false⟩ (by decide)

/-- Claim C7: on a store containing the id, an update supplying only a
title replaces the title and keeps id, description and completion flag; an
update supplying only a description keeps the title; and an update
supplying neither leaves the whole store byte-identical and reports no
change. -/
theorem C7_update_frame :
    ∀ (tasks : List Task) (task_id : Int) (t : Task) (titleIn descIn : String),
    find_task tasks task_id = some t →
    (pyStrip titleIn ≠ "" → pyStrip descIn = "" →
      find_task (update_task tasks task_id titleIn descIn).1 task_id
        = some ⟨t.id, pyStrip titleIn, t.desc, t.complete⟩) ∧
    (pyStrip titleIn = "" → pyStrip descIn ≠ "" →
      find_task (update_task tasks task_id titleIn descIn).1 task_id
        = some ⟨t.id, t.title, pyStrip descIn, t.complete⟩) ∧
    (pyStrip titleIn = "" → pyStrip descIn = "" →
      (update_task tasks task_id titleIn descIn).1 = tasks ∧
      (update_task tasks task_id titleIn descIn).2.2.1 = false) := by
  intro tasks task_id t titleIn descIn hf
  obtain ⟨l1, l2, hsplit, hall⟩ := find_task_decomp hf
  have hid := find_task_some_id hf
  have hstore : (update_task tasks task_id titleIn descIn).1
      = l1 ++ apply_update (pyStrip titleIn) (pyStrip descIn) t :: l2 := by
    simp only [update_task, hf]
    rw [hsplit, modify_first_append_cons l1 l2 t task_id _ hall hid]
  have hfind : find_task (update_task tasks task_id titleIn descIn).1 task_id
      = some (apply_update (pyStrip titleIn) (pyStrip descIn) t) := by
    rw [hstore]
    exact find_task_append_cons l1 l2 _ task_id hall
      (by rw [apply_update_id]; exact hid)
  refine ⟨?_, ?_, ?_⟩
  · intro hnt hnd
    rw [hfind]
    simp [apply_update, hnt, hnd]
  · intro hnt hnd
    rw [hfind]
    simp [apply_update, hnt, hnd]
  · intro hnt hnd
    constructor
    · rw [hstore]
      simp only [apply_update, hnt, hnd]
      simp
      exact hsplit.symm
    · simp [update_task, hf, hnt, hnd]

/-- Witness for C7: replacing only the title on the one-task store keeps
the description. -/
theorem C7_witness :
    find_task (update_task [⟨1, "A", "B", false⟩] 1 "N" "").1 1
      = some ⟨1, pyStrip "N", "B", false⟩ :=
  (C7_update_frame [⟨1, "A", "B", false⟩] 1 ⟨1, "A", "B", false⟩ "N" ""
    (by decide)).1 (by decide) (by decide)

/-- Claim C8: on a store containing the id, `delete` returns success, stays
silent, and removes exactly the (first, and by id uniqueness only) task
with that id, keeping all others in order; on an absent id it returns
not-found, leaves the store completely unchanged and prints exactly
`Task with ID <id> not found.`, as in Scenario 5 with id 99. -/
theorem C8_delete_spec :
    (∀ (tasks : List Task) (task_id : Int) (t : Task),
      find_task tasks task_id = some t →
      (delete_task tasks task_id).2.1 = true ∧
      (delete_task tasks task_id).2.2 = [] ∧
      ∃ l1 l2, tasks = l1 ++ t :: l2 ∧ (∀ u ∈ l1, u.id ≠ task_id) ∧
        (delete_task tasks task_id).1 = l1 ++ l2) ∧
    (∀ (tasks : List Task) (task_id : Int),
      find_task tasks task_id = none →
      (delete_task tasks task_id).2.1 = false ∧
      (delete_task tasks task_id).1 = tasks ∧
      (delete_task tasks task_id).2.2 = [notFoundMsg task_id]) ∧
    delete_task [⟨1, "T", "D", false⟩] 99
      = ([⟨1, "T", "D", false⟩], false, ["Task with ID 99 not found."]) := by
  refine ⟨?_, ?_, by decide⟩
  · intro tasks task_id t hf
    obtain ⟨l1, l2, hsplit, hall⟩ := find_task_decomp hf
    have hid := find_task_some_id hf
    refine ⟨by simp [delete_task, hf], by simp [delete_task, hf],
      l1, l2, hsplit, hall, ?_⟩
    simp only [delete_task, hf]
    rw [hsplit, list_remove_append_cons l1 l2 t task_id hall hid]
  · intro tasks task_id hf
    exact ⟨by simp [delete_task, hf], by simp [delete_task, hf],
      by simp [delete_task, hf]⟩

/-- Witness for C8: deleting id 2 from a two-task store, and Scenario 5 on
the one-task store. -/
theorem C8_witness :
    ((delete_task [⟨1, "T", "D", false⟩, ⟨2, "U", "E", true⟩] 2).2.1 = true ∧
     (delete_task [⟨1, "T", "D", false⟩, ⟨2, "U", "E", true⟩] 2).2.2 = [] ∧
     ∃ l1 l2, [(⟨1, "T", "D", false⟩ : Task), ⟨2, "U", "E", true⟩]
         = l1 ++ (⟨2, "U", "E", true⟩ : Task) :: l2 ∧
       (∀ u ∈ l1, u.id ≠ 2) ∧
       (delete_task [⟨1, "T", "D", false⟩, ⟨2, "U", "E", true⟩] 2).1
         = l1 ++ l2) ∧
    ((delete_task [⟨1, "T", "D", false⟩] 99).2.1 = false ∧
     (delete_task [⟨1, "T", "D", false⟩] 99).1 = [⟨1, "T", "D", false⟩] ∧
     (delete_task [⟨1, "T", "D", false⟩] 99).2.2 = [notFoundMsg 99]) :=
  ⟨C8_delete_spec.1 [⟨1, "T", "D", false⟩, ⟨2, "U", "E", true⟩] 2
      ⟨2, "U", "E", true⟩ (by decide),
   C8_delete_spec.2.1 [⟨1, "T", "D", false⟩] 99 (by decide)⟩

/-- Claim C10: `update` inspects its two inputs only after stripping, so a
whitespace-only input behaves exactly like an empty one (the field is kept
and contributes no change), and a field actually stored through `update`
equals the stripped input, which carries no surrounding whitespace (strip
is idempotent). -/
theorem C10_update_whitespace :
    ∀ (tasks : List Task) (task_id : Int) (titleIn descIn : String),
    (pyStrip titleIn = "" →
      update_task tasks task_id titleIn descIn
        = update_task tasks task_id "" descIn) ∧
    (pyStrip descIn = "" →
      update_task tasks task_id titleIn descIn
        = update_task tasks task_id titleIn "") ∧
    (∀ t : Task, find_task tasks task_id = some t → pyStrip titleIn ≠ "" →
      ∃ t2 : Task,
        find_task (update_task tasks task_id titleIn descIn).1 task_id
          = some t2 ∧ t2.title = pyStrip titleIn ∧
        pyStrip t2.title = t2.title) ∧
    (∀ t : Task, find_task tasks task_id = some t → pyStrip descIn ≠ "" →
      ∃ t2 : Task,
        find_task (update_task tasks task_id titleIn descIn).1 task_id
          = some t2 ∧ t2.desc = pyStrip descIn ∧
        pyStrip t2.desc = t2.desc) := by
  intro tasks task_id titleIn descIn
  refine ⟨?_, ?_, ?_, ?_⟩
  · intro h
    cases hf : find_task tasks task_id with
    | none => simp [update_task, hf]
    | some u => simp [update_task, hf, h, pyStrip_empty]
  · intro h
    cases hf : find_task tasks task_id with
    | none => simp [update_task, hf]
    | some u => simp [update_task, hf, h, pyStrip_empty]
  · intro t hf hnt
    obtain ⟨l1, l2, hsplit, hall⟩ := find_task_decomp hf
    have hid := find_task_some_id hf
    refine ⟨apply_update (pyStrip titleIn) (pyStrip descIn) t, ?_, ?_, ?_⟩
    · simp only [update_task, hf]
      rw [hsplit, modify_first_append_cons l1 l2 t task_id _ hall hid]
      exact find_task_append_cons l1 l2 _ task_id hall
        (by rw [apply_update_id]; exact hid)
    · by_cases hnd : pyStrip descIn = "" <;> simp [apply_update, hnt, hnd]
    · by_cases hnd : pyStrip descIn = "" <;>
        simp [apply_update, hnt, hnd, pyStrip_idem]
  · intro t hf hnd
    obtain ⟨l1, l2, hsplit, hall⟩ := find_task_decomp hf
    have hid := find_task_some_id hf
    refine ⟨apply_update (pyStrip titleIn) (pyStrip descIn) t, ?_, ?_, ?_⟩
    · simp only [update_task, hf]
      rw [hsplit, modify_first_append_cons l1 l2 t task_id _ hall hid]
      exact find_task_append_cons l1 l2 _ task_id hall
        (by rw [apply_update_id]; exact hid)
    · by_cases hnt : pyStrip titleIn = "" <;> simp [apply_update, hnt, hnd]
    · by_cases hnt : pyStrip titleIn = "" <;>
        simp [apply_update, hnt, hnd, pyStrip_idem]

/-- Witness for C10: a whitespace-only new title behaves like the empty
one; a padded new description is stored stripped. -/
theorem C10_witness :
    (update_task [⟨1, "A", "B", false⟩] 1 "  " "X"
      = update_task [⟨1, "A", "B", false⟩] 1 "" "X") ∧
    ∃ t2 : Task, find_task (update_task [⟨1, "A", "B", false⟩] 1 "" " X ").1 1
        = some t2 ∧ t2.desc = pyStrip " X " ∧ pyStrip t2.desc = t2.desc :=
  ⟨(C10_update_whitespace [⟨1, "A", "B", false⟩] 1 "  " "X").1 (by decide),
   (C10_update_whitespace [⟨1, "A", "B", false⟩] 1 "" " X ").2.2.2
     ⟨1, "A", "B", false⟩ (by decide) (by decide)⟩

end TodoApp
